import Mathlib

/-!
# gnutls-example: the record-reading drain loop of `src/main.cpp`

A shallow embedding of `main` and its helpers.  Everything the program asks of
the outside world (the gnutls session, `::poll`, `ioctl(FIONREAD)`) is supplied
by an explicit script of answers; the program's own control flow, its local
variables and the bytes written to `output.html` are Lean definitions.
-/

namespace GnutlsExample

/-! ## Constants -/

/-- 4k read buffer (`MAX_BUF`). -/
def MAX_BUF : Nat := 4 * 1024

/-- Local constant `timeout_ms` of `main`. -/
def timeout_ms : Int := 2000

/-- Local constant `max_no_bytes_retries` of `main`. -/
def max_no_bytes_retries : Nat := 10

/-- Local constant `retries_timeout_ms` of `main`. -/
def retries_timeout_ms : Nat := 10

/-- Local constant `request` of `main`. -/
def request : String := "GET / HTTP/1.0\r\n\r\n"

/-- The literal handed to `received_so_far.find` and to `strlen`. -/
def CRLFCRLF : List Char := "\r\n\r\n".toList

/-- Value of `GNUTLS_E_PREMATURE_TERMINATION` in `gnutls/gnutls.h` (the program only
names it in a comment; its code never compares against it). -/
def GNUTLS_E_PREMATURE_TERMINATION : Int := -110

/-! ## Readiness monitor -/

/-- The enum `POLL_READ_RESULT`. -/
inductive POLL_READ_RESULT where
  | ERROR
  | DATA_READY
  | TIMED_OUT
  deriving DecidableEq

/-- Body of `poll_read::poll`: `result` is what `::poll` returned and `pollin` says
whether `fds.revents & POLLIN` is non-zero. -/
def poll_read_poll (result : Int) (pollin : Bool) : POLL_READ_RESULT :=
  if result < 0 then POLL_READ_RESULT.ERROR
  else if result > 0 then
    if pollin then POLL_READ_RESULT.DATA_READY else POLL_READ_RESULT.TIMED_OUT
  else POLL_READ_RESULT.TIMED_OUT

/-- Body of `get_bytes_available`: `bytes_available` is the value left in the local
by `ioctl(fd, FIONREAD, ..)`; the function returns `size_t(std::max(0, bytes_available))`. -/
def get_bytes_available (bytes_available : Int) : Nat :=
  (max 0 bytes_available).toNat

/-! ## Header/body split -/

/-- `std::string::find(needle)` from position 0: index of the first occurrence,
`none` standing for `std::string::npos`. -/
def find : List Char → List Char → Option Nat
  | [], needle => if needle.isPrefixOf [] then some 0 else none
  | c :: t, needle =>
    if needle.isPrefixOf (c :: t) then some 0 else (find t needle).map (· + 1)

/-- The variables of `main` that the drain loop reads and writes, `ofs` being the
bytes written so far to `output.html`. -/
structure LoopState where
  no_bytes_retries : Nat
  received_so_far : List Char
  reading_headers : Bool
  ofs : List Char
  deriving DecidableEq

/-- Values of the locals right before the `while` loop. -/
def initial : LoopState :=
  { no_bytes_retries := 0, received_so_far := [], reading_headers := true, ofs := [] }

/-- What the program does that is visible from outside: calls into the session,
the readiness monitor and the transport, and lines printed. -/
inductive Event where
  | gnutls_global_init
  | configure
  | tcp_connect
  | set_transport_ptr (sd : Int)
  | handshake
  | send (bytes : String)
  | ofs_open
  | check_pending
  | poll (timeout : Int)
  | get_bytes_available
  | sleep_ms (ms : Nat)
  | recv (max_bytes : Nat)
  | bye
  | tcp_close (sd : Int)
  | gnutls_global_deinit
  | cout (line : String)
  | cout_read_error (result : Int)
  | cerr (line : String)
  | cerr_exception
  | throw_runtime_error (what : String)
  deriving DecidableEq

/-- Lines 247-270: what one successful read of `chunk` (the first `bytes_read` bytes of
`buffer`) does to the header accumulator and to the output file. -/
def feed (s : LoopState) (chunk : List Char) : LoopState × List Event :=
  if s.reading_headers then
    let received_so_far := s.received_so_far ++ chunk
    match find received_so_far CRLFCRLF with
    | some i =>
      let i := i + CRLFCRLF.length
      ({ s with received_so_far := received_so_far, reading_headers := false,
                ofs := s.ofs ++ received_so_far.drop i },
       [Event.cout "Headers received", Event.cout "Reading content"])
    | none => ({ s with received_so_far := received_so_far }, [])
  else
    ({ s with ofs := s.ofs ++ chunk }, [])

/-- The header/body logic applied to the chunks of successive reads, in order. -/
def feedAll (s : LoopState) : List (List Char) → LoopState
  | [] => s
  | chunk :: rest => feedAll (feed s chunk).1 rest

/-! ## The drain loop -/

/-- Outcome of a gnutlsxx call: it returns a value or raises `gnutls::exception`. -/
inductive Call (α : Type) where
  | ret (a : α)
  | throws
  deriving DecidableEq

/-- The wrapper `RETWRAP` through which gnutlsxx passes the code of the underlying C
function in `session::handshake` and `session::recv`: a negative code is raised as
`gnutls::exception`, any other value is returned.  gnutlsxx is a library outside this
repository; the comment at line 219 relies on this behaviour. -/
def RETWRAP (ret : Int) : Call Int :=
  if ret < 0 then Call.throws else Call.ret ret

/-- What `session.recv` hands to `main` when `gnutls_record_recv` gives the code `ret`
and leaves `buffer` behind: the code goes through `RETWRAP`. -/
def session_recv (ret : Int) (buffer : List Char) : Call (Int × List Char) :=
  match RETWRAP ret with
  | Call.throws => Call.throws
  | Call.ret r => Call.ret (r, buffer)

/-- Answers of the outside world during one pass through the loop body: the value of
`session.check_pending()`, the return value of `::poll` with the `POLLIN` bit of
`revents`, the count reported by `FIONREAD`, and the result of `session.recv`
together with the contents it left in `buffer`.  An answer is only looked at when the
program makes the call.  The type of `recv` follows the declaration (`ssize_t`, or an
exception) and so also holds negative returns, which the program tests for at line 242;
the answers gnutlsxx really gives are those of the form `session_recv ret buffer`. -/
structure Iter where
  check_pending : Nat
  poll_result : Int
  revents_POLLIN : Bool
  bytes_available : Int
  recv : Call (Int × List Char)
  deriving DecidableEq

/-- How one pass through the loop body ends: back to the loop condition (`continue` or
falling off the end of the body), `break`, or a `gnutls::exception` leaving the loop. -/
inductive Ctl where
  | again
  | brk
  | thrown
  deriving DecidableEq

/-- Result of one pass through the loop body. -/
structure IterResult where
  ctl : Ctl
  state : LoopState
  events : List Event
  deriving DecidableEq

/-- Lines 238-270: the read and what follows it; `evs` are the calls already made in
this pass. -/
def recv_step (s : LoopState) (it : Iter) (evs : List Event) : IterResult :=
  match it.recv with
  | Call.throws => ⟨Ctl.thrown, s, evs ++ [Event.recv MAX_BUF]⟩
  | Call.ret (result, buffer) =>
    if result = 0 then
      ⟨Ctl.brk, s, evs ++ [Event.recv MAX_BUF, Event.cout "Peer has closed the TLS connection"]⟩
    else if result < 0 then
      ⟨Ctl.brk, s, evs ++ [Event.recv MAX_BUF, Event.cout_read_error result]⟩
    else
      let bytes_read := result.toNat
      let r := feed s (buffer.take bytes_read)
      ⟨Ctl.again, r.1, evs ++ [Event.recv MAX_BUF] ++ r.2⟩

/-- Lines 214-270: one pass through the body of the `while` loop.  In the `switch`, the
`DATA_READY` case falls through into `ERROR` when bytes are available, and the `break`
of the `ERROR` and `TIMED_OUT` cases leaves the `switch`, so all three reach the read. -/
def loop_body (s : LoopState) (it : Iter) : IterResult :=
  if it.check_pending = 0 then
    match poll_read_poll it.poll_result it.revents_POLLIN with
    | POLL_READ_RESULT.DATA_READY =>
      if get_bytes_available it.bytes_available = 0 then
        ⟨Ctl.again, { s with no_bytes_retries := s.no_bytes_retries + 1 },
          [Event.check_pending, Event.poll timeout_ms, Event.get_bytes_available,
           Event.sleep_ms retries_timeout_ms]⟩
      else
        recv_step s it [Event.check_pending, Event.poll timeout_ms, Event.get_bytes_available]
    | POLL_READ_RESULT.ERROR =>
      recv_step s it [Event.check_pending, Event.poll timeout_ms]
    | POLL_READ_RESULT.TIMED_OUT =>
      recv_step s it [Event.check_pending, Event.poll timeout_ms]
  else
    recv_step s it [Event.check_pending]

/-- How the `while` loop was left; `running` means the script of answers ended while
the loop condition still held, so the run is a proper prefix of a longer one. -/
inductive Exit where
  | condition
  | brk
  | thrown
  | running
  deriving DecidableEq

/-- Result of the `while` loop: how it was left, the final variables, everything it did
and the number of passes through the body. -/
structure Drain where
  exit : Exit
  state : LoopState
  events : List Event
  passes : Nat
  deriving DecidableEq

/-- Lines 213-271: the `while` loop, driven by one `Iter` per pass. -/
def drain : LoopState → List Iter → Drain
  | s, [] =>
    if s.no_bytes_retries < max_no_bytes_retries then ⟨Exit.running, s, [], 0⟩
    else ⟨Exit.condition, s, [], 0⟩
  | s, it :: rest =>
    if s.no_bytes_retries < max_no_bytes_retries then
      let r := loop_body s it
      match r.ctl with
      | Ctl.again =>
        let d := drain r.state rest
        ⟨d.exit, d.state, r.events ++ d.events, d.passes + 1⟩
      | Ctl.brk => ⟨Exit.brk, r.state, r.events, 1⟩
      | Ctl.thrown => ⟨Exit.thrown, r.state, r.events, 1⟩
    else ⟨Exit.condition, s, [], 0⟩

/-! ## `main` -/

/-- Answers of the outside world over a whole run.  `config` stands for the calls of
lines 155-171 (constructing the session and credentials, loading the trust file, setting
credentials and priorities); `tcp_connect` is `none` when `connect` fails and the helper
calls `exit(1)`, whatever address `hostname_to_ip` produced.  The type of `handshake`
follows the declaration (`int`, or an exception) and so also holds negative returns,
which the program tests for at line 180; the answers gnutlsxx really gives are those of
the form `RETWRAP code`. -/
structure Env where
  config : Call Unit
  tcp_connect : Option Int
  handshake : Call Int
  send : Call Unit
  iters : List Iter
  bye : Call Unit
  deriving DecidableEq

/-- How the process ends: `main` returns, `exit` is called, an exception nobody catches
reaches `std::terminate`, or (for a script that is too short) it is still in the loop. -/
inductive Outcome where
  | returned (code : Int)
  | exited (code : Int)
  | terminated
  | running
  deriving DecidableEq

/-- A run of `main`: how it ended, what it did, and the contents of `output.html` when
the program opened it. -/
structure Run where
  outcome : Outcome
  events : List Event
  output : Option (List Char)
  deriving DecidableEq

/-- Lines 281-287: what follows the `try`/`catch`. -/
def finish (sd : Int) (evs : List Event) (output : Option (List Char)) : Run :=
  ⟨Outcome.returned 0,
   evs ++ (if sd ≠ -1 then [Event.tcp_close sd] else []) ++ [Event.gnutls_global_deinit],
   output⟩

/-- Lines 148-288.  The handler of line 276 catches `gnutls::exception` only, so the
`std::runtime_error` of line 181 leaves `main`. -/
def main (env : Env) : Run :=
  let e0 := [Event.gnutls_global_init, Event.configure]
  match env.config with
  | Call.throws => finish (-1) (e0 ++ [Event.cerr_exception]) none
  | Call.ret _ =>
    match env.tcp_connect with
    | none => ⟨Outcome.exited 1, e0 ++ [Event.tcp_connect, Event.cerr "Connect error\n"], none⟩
    | some sd =>
      let e1 := e0 ++ [Event.tcp_connect, Event.set_transport_ptr sd, Event.handshake]
      match env.handshake with
      | Call.throws => finish sd (e1 ++ [Event.cerr_exception]) none
      | Call.ret result =>
        if result < 0 then
          ⟨Outcome.terminated,
           e1 ++ [Event.throw_runtime_error ("Handshake failed, error " ++ toString result)],
           none⟩
        else
          let e2 := e1 ++ [Event.cout "Handshake completed", Event.cout "Sending HTTP request",
                           Event.send request]
          match env.send with
          | Call.throws => finish sd (e2 ++ [Event.cerr_exception]) none
          | Call.ret _ =>
            let e3 := e2 ++ [Event.cout "Reading response", Event.ofs_open]
            let d := drain initial env.iters
            match d.exit with
            | Exit.running => ⟨Outcome.running, e3 ++ d.events, some d.state.ofs⟩
            | Exit.thrown =>
              finish sd (e3 ++ d.events ++ [Event.cerr_exception]) (some d.state.ofs)
            | _ =>
              let e4 := e3 ++ d.events ++ [Event.bye]
              match env.bye with
              | Call.throws => finish sd (e4 ++ [Event.cerr_exception]) (some d.state.ofs)
              | Call.ret _ => finish sd (e4 ++ [Event.cout "Finished"]) (some d.state.ofs)

/-! ## Auxiliary notions used to state the properties -/

/-- Bytes of a stream that follow its first boundary; empty when it has none. -/
def body (S : List Char) : List Char :=
  match find S CRLFCRLF with
  | some i => S.drop (i + CRLFCRLF.length)
  | none => []

/-- A pass in which nothing is pending in the session, the monitor reports `DATA_READY`
and no byte is queued on the socket. -/
def Iter.zero_byte (it : Iter) : Bool :=
  it.check_pending = 0 ∧
  poll_read_poll it.poll_result it.revents_POLLIN = POLL_READ_RESULT.DATA_READY ∧
  get_bytes_available it.bytes_available = 0

/-- The bytes a pass hands to the header/body logic: the first `result` bytes of `buffer`
when the pass gets to the read and `recv` returns a positive `result`; `none` when the
pass does not read or the read returns no data. -/
def Iter.chunk (it : Iter) : Option (List Char) :=
  if it.zero_byte then none
  else
    match it.recv with
    | Call.ret (result, buffer) => if 0 < result then some (buffer.take result.toNat) else none
    | Call.throws => none

/-- The chunks read during the first `passes` passes of a script, in order. -/
def chunks_read (its : List Iter) (passes : Nat) : List (List Char) :=
  (its.take passes).filterMap Iter.chunk

/-- Lines printed to standard output or standard error, as opposed to calls into the
session, the monitor, the transport and the output file. -/
def Event.is_message : Event → Bool
  | Event.cout _ => true
  | Event.cout_read_error _ => true
  | Event.cerr _ => true
  | Event.cerr_exception => true
  | _ => false

/-- The calls among a list of events, in order. -/
def calls (evs : List Event) : List Event :=
  evs.filter (fun e => !e.is_message)

/-! ## The boundary search -/

theorem find_eq_some_iff (h n : List Char) (i : Nat) :
    find h n = some i ↔ n <+: h.drop i ∧ ∀ j, j < i → ¬ n <+: h.drop j := by
  induction h generalizing i with
  | nil =>
    by_cases hp : n <+: []
    · have h0 : find [] n = some 0 := by simp [find, List.isPrefixOf_iff_prefix, hp]
      rw [h0]
      constructor
      · intro hi
        have : i = 0 := by simpa using hi.symm
        subst this
        exact ⟨by simpa using hp, fun j hj => absurd hj (Nat.not_lt_zero j)⟩
      · rintro ⟨_, hmin⟩
        rcases Nat.eq_zero_or_pos i with h0 | hpos
        · simp [h0]
        · exact absurd (by simpa using hp) (hmin 0 hpos)
    · have h0 : find [] n = none := by simp [find, List.isPrefixOf_iff_prefix, hp]
      rw [h0]
      constructor
      · intro hi; cases hi
      · rintro ⟨hpre, _⟩
        exact absurd (by simpa using hpre) hp
  | cons c t ih =>
    by_cases hp : n <+: c :: t
    · have h0 : find (c :: t) n = some 0 := by simp [find, List.isPrefixOf_iff_prefix, hp]
      rw [h0]
      constructor
      · intro hi
        have : i = 0 := by simpa using hi.symm
        subst this
        exact ⟨by simpa using hp, fun j hj => absurd hj (Nat.not_lt_zero j)⟩
      · rintro ⟨_, hmin⟩
        rcases Nat.eq_zero_or_pos i with h0 | hpos
        · simp [h0]
        · exact absurd (by simpa using hp) (hmin 0 hpos)
    · have h0 : find (c :: t) n = (find t n).map (· + 1) := by
        simp [find, List.isPrefixOf_iff_prefix, hp]
      rw [h0]
      cases i with
      | zero =>
        constructor
        · intro hi
          cases hf : find t n <;> simp [hf] at hi
        · rintro ⟨hpre, _⟩
          exact absurd (by simpa using hpre) hp
      | succ k =>
        constructor
        · intro hi
          have hk : find t n = some k := by
            cases hf : find t n with
            | none => simp [hf] at hi
            | some m =>
              simp [hf] at hi
              rw [hi]
          obtain ⟨hpre, hmin⟩ := (ih k).1 hk
          refine ⟨by simpa using hpre, ?_⟩
          intro j hj
          cases j with
          | zero => simpa using hp
          | succ m => simpa using hmin m (by omega)
        · rintro ⟨hpre, hmin⟩
          have hk : find t n = some k := by
            refine (ih k).2 ⟨by simpa using hpre, ?_⟩
            intro j hj
            simpa using hmin (j + 1) (by omega)
          simp [hk]

theorem find_eq_none_iff (h n : List Char) : find h n = none ↔ ¬ n <:+: h := by
  induction h with
  | nil =>
    by_cases hp : n <+: []
    · simp [find, List.isPrefixOf_iff_prefix, hp, List.prefix_nil.1 hp]
    · have hn : ¬ n = [] := fun e => hp (List.prefix_nil.2 e)
      simp [find, List.isPrefixOf_iff_prefix, hp, List.infix_nil, hn]
  | cons c t ih =>
    by_cases hp : n <+: c :: t
    · simp [find, List.isPrefixOf_iff_prefix, hp, List.infix_cons_iff]
    · have h0 : find (c :: t) n = (find t n).map (· + 1) := by
        simp [find, List.isPrefixOf_iff_prefix, hp]
      rw [h0, List.infix_cons_iff]
      simp [hp, ih]

theorem find_bound (h n : List Char) (i : Nat) (hf : find h n = some i) :
    i + n.length ≤ h.length := by
  obtain ⟨hpre, hmin⟩ := (find_eq_some_iff h n i).1 hf
  have hl := hpre.length_le
  rw [List.length_drop] at hl
  by_cases hi : i ≤ h.length
  · omega
  · have hn : n = [] := List.length_eq_zero.1 (by omega)
    subst hn
    exact absurd (List.nil_prefix) (hmin 0 (by omega))

theorem find_append (h n x : List Char) (i : Nat) (hf : find h n = some i) :
    find (h ++ x) n = some i := by
  have hb := find_bound h n i hf
  obtain ⟨hpre, hmin⟩ := (find_eq_some_iff h n i).1 hf
  refine (find_eq_some_iff (h ++ x) n i).2 ⟨?_, ?_⟩
  · rw [List.drop_append_of_le_length (by omega)]
    exact hpre.trans (List.prefix_append _ _)
  · intro j hj hpj
    rw [List.drop_append_of_le_length (by omega)] at hpj
    refine hmin j hj (List.prefix_of_prefix_length_le hpj (List.prefix_append _ _) ?_)
    rw [List.length_drop]
    omega

/-! ## The header/body split over a sequence of reads -/

theorem feedAll_content (s : LoopState) (cs : List (List Char))
    (hs : s.reading_headers = false) :
    feedAll s cs = { s with ofs := s.ofs ++ cs.flatten } := by
  induction cs generalizing s with
  | nil => simp [feedAll]
  | cons c rest ih =>
    have hf : (feed s c).1 = { s with ofs := s.ofs ++ c } := by simp [feed, hs]
    rw [feedAll, hf, ih _ (by simpa using hs)]
    simp [List.append_assoc]

theorem body_of_none (S : List Char) (h : find S CRLFCRLF = none) : body S = [] := by
  simp [body, h]

theorem body_append (S x : List Char) (i : Nat) (h : find S CRLFCRLF = some i) :
    body (S ++ x) = S.drop (i + CRLFCRLF.length) ++ x := by
  have hb := find_bound S CRLFCRLF i h
  simp only [body, find_append S CRLFCRLF x i h]
  exact List.drop_append_of_le_length hb

theorem feedAll_headers (s : LoopState) (cs : List (List Char))
    (hs : s.reading_headers = true) (hn : find s.received_so_far CRLFCRLF = none) :
    (feedAll s cs).ofs = s.ofs ++ body (s.received_so_far ++ cs.flatten) := by
  induction cs generalizing s with
  | nil => simp [feedAll, body_of_none _ hn]
  | cons c rest ih =>
    cases hf : find (s.received_so_far ++ c) CRLFCRLF with
    | none =>
      have h1 : (feed s c).1 = { s with received_so_far := s.received_so_far ++ c } := by
        simp [feed, hs, hf]
      rw [feedAll, h1, ih _ (by simpa using hs) (by simpa using hf)]
      simp [List.append_assoc]
    | some i =>
      have h1 : (feed s c).1 =
          { s with received_so_far := s.received_so_far ++ c, reading_headers := false,
                   ofs := s.ofs ++ (s.received_so_far ++ c).drop (i + CRLFCRLF.length) } := by
        simp [feed, hs, hf]
      rw [feedAll, h1, feedAll_content _ _ rfl]
      have hb := body_append (s.received_so_far ++ c) rest.flatten i hf
      simp only [List.flatten_cons]
      rw [← List.append_assoc s.received_so_far c rest.flatten, hb]
      simp [List.append_assoc]

theorem feedAll_initial (cs : List (List Char)) :
    (feedAll initial cs).ofs = body cs.flatten := by
  have h := feedAll_headers initial cs rfl (by decide)
  simpa [initial] using h

/-! ## One pass through the loop body -/

theorem feed_no_bytes_retries (s : LoopState) (chunk : List Char) :
    (feed s chunk).1.no_bytes_retries = s.no_bytes_retries := by
  cases hr : s.reading_headers
  · simp [feed, hr]
  · cases hf : find (s.received_so_far ++ chunk) CRLFCRLF <;> simp [feed, hr, hf]

theorem loop_body_zero_byte (s : LoopState) (it : Iter) (hz : it.zero_byte = true) :
    loop_body s it =
      ⟨Ctl.again, { s with no_bytes_retries := s.no_bytes_retries + 1 },
        [Event.check_pending, Event.poll timeout_ms, Event.get_bytes_available,
         Event.sleep_ms retries_timeout_ms]⟩ := by
  simp only [Iter.zero_byte, decide_eq_true_eq] at hz
  obtain ⟨h1, h2, h3⟩ := hz
  simp [loop_body, h1, h2, h3]

theorem recv_step_no_bytes_retries (s : LoopState) (it : Iter) (evs : List Event) :
    (recv_step s it evs).state.no_bytes_retries = s.no_bytes_retries := by
  unfold recv_step
  split
  · rfl
  · split
    · rfl
    · split
      · rfl
      · exact feed_no_bytes_retries _ _

theorem loop_body_not_zero_byte (s : LoopState) (it : Iter) (hz : it.zero_byte = false) :
    (loop_body s it).state.no_bytes_retries = s.no_bytes_retries := by
  unfold loop_body
  split
  · rename_i h1
    split
    · rename_i h2
      split
      · rename_i h3
        simp [Iter.zero_byte, h1, h2, h3] at hz
      · exact recv_step_no_bytes_retries _ _ _
    · exact recv_step_no_bytes_retries _ _ _
    · exact recv_step_no_bytes_retries _ _ _
  · exact recv_step_no_bytes_retries _ _ _

/-! ## Unfolding the loop -/

theorem drain_stop (s : LoopState) (its : List Iter)
    (h : ¬ s.no_bytes_retries < max_no_bytes_retries) :
    drain s its = ⟨Exit.condition, s, [], 0⟩ := by
  cases its <;> simp [drain, h]

theorem drain_nil (s : LoopState) (h : s.no_bytes_retries < max_no_bytes_retries) :
    drain s [] = ⟨Exit.running, s, [], 0⟩ := by
  simp [drain, h]

theorem drain_again (s : LoopState) (it : Iter) (rest : List Iter)
    (h : s.no_bytes_retries < max_no_bytes_retries) (hc : (loop_body s it).ctl = Ctl.again) :
    drain s (it :: rest) =
      ⟨(drain (loop_body s it).state rest).exit, (drain (loop_body s it).state rest).state,
       (loop_body s it).events ++ (drain (loop_body s it).state rest).events,
       (drain (loop_body s it).state rest).passes + 1⟩ := by
  simp [drain, h, hc]

theorem drain_brk (s : LoopState) (it : Iter) (rest : List Iter)
    (h : s.no_bytes_retries < max_no_bytes_retries) (hc : (loop_body s it).ctl = Ctl.brk) :
    drain s (it :: rest) = ⟨Exit.brk, (loop_body s it).state, (loop_body s it).events, 1⟩ := by
  simp [drain, h, hc]

theorem drain_thrown (s : LoopState) (it : Iter) (rest : List Iter)
    (h : s.no_bytes_retries < max_no_bytes_retries) (hc : (loop_body s it).ctl = Ctl.thrown) :
    drain s (it :: rest)
      = ⟨Exit.thrown, (loop_body s it).state, (loop_body s it).events, 1⟩ := by
  simp [drain, h, hc]

/-! ## The retry counter -/

theorem drain_counter (s : LoopState) (its : List Iter)
    (hs : s.no_bytes_retries ≤ max_no_bytes_retries) :
    (drain s its).state.no_bytes_retries
        = s.no_bytes_retries + (its.take (drain s its).passes).countP Iter.zero_byte ∧
      (drain s its).state.no_bytes_retries ≤ max_no_bytes_retries ∧
      ((drain s its).exit = Exit.condition ↔
        (drain s its).state.no_bytes_retries = max_no_bytes_retries) := by
  induction its generalizing s with
  | nil =>
    by_cases h : s.no_bytes_retries < max_no_bytes_retries
    · rw [drain_nil s h]
      simp
      omega
    · rw [drain_stop s [] h]
      simp
      omega
  | cons it rest ih =>
    by_cases h : s.no_bytes_retries < max_no_bytes_retries
    · cases hz : it.zero_byte with
      | true =>
        have hb := loop_body_zero_byte s it hz
        have hc : (loop_body s it).ctl = Ctl.again := by rw [hb]
        rw [drain_again s it rest h hc]
        have hst : (loop_body s it).state.no_bytes_retries = s.no_bytes_retries + 1 := by
          rw [hb]
        obtain ⟨h1, h2, h3⟩ := ih (loop_body s it).state (by omega)
        refine ⟨?_, h2, h3⟩
        simp only [List.take_succ_cons, List.countP_cons, hz, if_true]
        omega
      | false =>
        have hst := loop_body_not_zero_byte s it hz
        cases hc : (loop_body s it).ctl with
        | again =>
          rw [drain_again s it rest h hc]
          obtain ⟨h1, h2, h3⟩ := ih (loop_body s it).state (by omega)
          refine ⟨?_, h2, h3⟩
          simp only [List.take_succ_cons, List.countP_cons, hz]
          simp
          omega
        | brk =>
          rw [drain_brk s it rest h hc]
          simp [hz, hst]
          omega
        | thrown =>
          rw [drain_thrown s it rest h hc]
          simp [hz, hst]
          omega
    · rw [drain_stop s _ h]
      simp
      omega

/-! ## The loop hands exactly the chunks read to the header/body logic -/

theorem feed_with_retries (s : LoopState) (n : Nat) (chunk : List Char) :
    (feed { s with no_bytes_retries := n } chunk).1
      = { (feed s chunk).1 with no_bytes_retries := n } := by
  cases hr : s.reading_headers
  · simp [feed, hr]
  · cases hf : find (s.received_so_far ++ chunk) CRLFCRLF <;> simp [feed, hr, hf]

theorem feedAll_with_retries (s : LoopState) (n : Nat) (cs : List (List Char)) :
    feedAll { s with no_bytes_retries := n } cs
      = { feedAll s cs with no_bytes_retries := n } := by
  induction cs generalizing s with
  | nil => rfl
  | cons c rest ih => rw [feedAll, feedAll, feed_with_retries, ih]

theorem loop_body_eq_recv_step (s : LoopState) (it : Iter) (hz : it.zero_byte = false) :
    ∃ evs, loop_body s it = recv_step s it evs := by
  unfold loop_body
  split
  · rename_i h1
    split
    · rename_i h2
      split
      · rename_i h3
        simp [Iter.zero_byte, h1, h2, h3] at hz
      · exact ⟨_, rfl⟩
    · exact ⟨_, rfl⟩
    · exact ⟨_, rfl⟩
  · exact ⟨_, rfl⟩

theorem loop_body_chunk_some (s : LoopState) (it : Iter) (c : List Char)
    (hc : it.chunk = some c) :
    (loop_body s it).ctl = Ctl.again ∧ (loop_body s it).state = (feed s c).1 := by
  cases hz : it.zero_byte with
  | true => simp [Iter.chunk, hz] at hc
  | false =>
    obtain ⟨evs, he⟩ := loop_body_eq_recv_step s it hz
    rw [he]
    cases hr : it.recv with
    | throws => simp [Iter.chunk, hz, hr] at hc
    | ret p =>
      obtain ⟨result, buffer⟩ := p
      by_cases hpos : 0 < result
      · have h0 : ¬ result = 0 := by omega
        have h1 : ¬ result < 0 := by omega
        simp [Iter.chunk, hz, hr, hpos] at hc
        subst hc
        simp [recv_step, hr, h0, h1]
      · simp [Iter.chunk, hz, hr, hpos] at hc

theorem loop_body_chunk_none (s : LoopState) (it : Iter) (hz : it.zero_byte = false)
    (hc : it.chunk = none) :
    (loop_body s it).ctl ≠ Ctl.again ∧ (loop_body s it).state = s := by
  obtain ⟨evs, he⟩ := loop_body_eq_recv_step s it hz
  rw [he]
  cases hr : it.recv with
  | throws => simp [recv_step, hr]
  | ret p =>
    obtain ⟨result, buffer⟩ := p
    by_cases hpos : 0 < result
    · simp [Iter.chunk, hz, hr, hpos] at hc
    · by_cases h0 : result = 0
      · simp [recv_step, hr, h0]
      · have h1 : result < 0 := by omega
        simp [recv_step, hr, h0, h1]

theorem drain_state_eq_feedAll (s : LoopState) (its : List Iter) :
    (drain s its).state
      = { feedAll s (chunks_read its (drain s its).passes) with
          no_bytes_retries := (drain s its).state.no_bytes_retries } := by
  induction its generalizing s with
  | nil =>
    by_cases h : s.no_bytes_retries < max_no_bytes_retries
    · rw [drain_nil s h]; rfl
    · rw [drain_stop s [] h]; rfl
  | cons it rest ih =>
    by_cases h : s.no_bytes_retries < max_no_bytes_retries
    · cases hz : it.zero_byte with
      | true =>
        have hb := loop_body_zero_byte s it hz
        have hc : (loop_body s it).ctl = Ctl.again := by rw [hb]
        have hst : (loop_body s it).state
            = { s with no_bytes_retries := s.no_bytes_retries + 1 } := by rw [hb]
        have hch : it.chunk = none := by simp [Iter.chunk, hz]
        rw [drain_again s it rest h hc]
        have := ih (loop_body s it).state
        simp only [chunks_read, List.take_succ_cons, List.filterMap_cons, hch] at this ⊢
        rw [this, hst, feedAll_with_retries]
      | false =>
        cases hch : it.chunk with
        | none =>
          obtain ⟨hc, hst⟩ := loop_body_chunk_none s it hz hch
          cases hctl : (loop_body s it).ctl with
          | again => exact absurd hctl hc
          | brk =>
            rw [drain_brk s it rest h hctl]
            simp [chunks_read, hch, hst, feedAll]
          | thrown =>
            rw [drain_thrown s it rest h hctl]
            simp [chunks_read, hch, hst, feedAll]
        | some c =>
          obtain ⟨hc, hst⟩ := loop_body_chunk_some s it c hch
          rw [drain_again s it rest h hc]
          have := ih (loop_body s it).state
          simp only [chunks_read, List.take_succ_cons, List.filterMap_cons, hch] at this ⊢
          rw [this, hst]
          rfl
    · rw [drain_stop s _ h]; rfl

/-! ## Claims about the header/body split -/

/-- C2: the header/body split is lossless and exact.  For every sequence of chunks fed in
order from the initial variables, with `S` their concatenation: when `S` contains the
boundary and its first occurrence starts at index `i`, the bytes written to the output
are exactly `S` from index `i + 4` on, so the first `i + 4` bytes of `S` followed by the
output give back `S`; when `S` does not contain the boundary nothing is written.  The
single chunk `HTTP/1.0 200 OK CRLF CRLF HI` writes exactly `HI`.  Every run of the loop
whose successful reads returned these chunks leaves exactly that output in the file. -/
theorem header_body_split_exact (chunks : List (List Char)) :
    (∀ i : Nat, CRLFCRLF <+: chunks.flatten.drop i →
        (∀ j, j < i → ¬ CRLFCRLF <+: chunks.flatten.drop j) →
        (feedAll initial chunks).ofs = chunks.flatten.drop (i + 4) ∧
        chunks.flatten.take (i + 4) ++ (feedAll initial chunks).ofs = chunks.flatten) ∧
    (¬ CRLFCRLF <:+: chunks.flatten → (feedAll initial chunks).ofs = []) ∧
    (feedAll initial ["HTTP/1.0 200 OK\r\n\r\nHI".toList]).ofs = "HI".toList ∧
    (∀ its : List Iter, chunks_read its (drain initial its).passes = chunks →
        (drain initial its).state.ofs = (feedAll initial chunks).ofs) := by
  refine ⟨?_, ?_, by decide, ?_⟩
  · intro i hpre hmin
    have hf : find chunks.flatten CRLFCRLF = some i :=
      (find_eq_some_iff _ _ _).2 ⟨hpre, hmin⟩
    have ho : (feedAll initial chunks).ofs = chunks.flatten.drop (i + 4) := by
      rw [feedAll_initial]
      simp only [body, hf]
      rfl
    exact ⟨ho, by rw [ho]; exact List.take_append_drop _ _⟩
  · intro hno
    rw [feedAll_initial]
    exact body_of_none _ ((find_eq_none_iff _ _).2 hno)
  · intro its hch
    rw [drain_state_eq_feedAll initial its, hch]

/-- Instance of C2 at two chunks whose boundary straddles the cut: the first occurrence
is at index 2 and the output is the stream from index 6 on.  Also the run in which the
first read returns `HTTP/1.0 200 OK CRLF CRLF HI` and the next one returns 0: the loop is
left by `break` and the file holds exactly `HI`. -/
theorem header_body_split_exact_witness :
    ((feedAll initial ["ab\r\n".toList, "\r\ncd".toList]).ofs
        = ["ab\r\n".toList, "\r\ncd".toList].flatten.drop (2 + 4) ∧
      ["ab\r\n".toList, "\r\ncd".toList].flatten.take (2 + 4)
          ++ (feedAll initial ["ab\r\n".toList, "\r\ncd".toList]).ofs
        = ["ab\r\n".toList, "\r\ncd".toList].flatten) ∧
    (drain initial
        [⟨0, 1, true, 21, Call.ret (21, "HTTP/1.0 200 OK\r\n\r\nHI".toList)⟩,
         ⟨0, 1, true, 31, Call.ret (0, [])⟩]).exit = Exit.brk ∧
    (main ⟨Call.ret (), some 3, Call.ret 0, Call.ret (),
        [⟨0, 1, true, 21, Call.ret (21, "HTTP/1.0 200 OK\r\n\r\nHI".toList)⟩,
         ⟨0, 1, true, 31, Call.ret (0, [])⟩], Call.ret ()⟩).output = some "HI".toList :=
  ⟨(header_body_split_exact ["ab\r\n".toList, "\r\ncd".toList]).1 2 (by decide) (by decide),
   by decide, by decide⟩

/-- C5: boundary detection does not depend on how the stream is cut.  Any two chunk
sequences with the same concatenation, fed in order from the initial variables, write
the same bytes to the output; this covers one byte per chunk and cuts inside the
boundary. -/
theorem chunking_independent (cs₁ cs₂ : List (List Char))
    (h : cs₁.flatten = cs₂.flatten) :
    (feedAll initial cs₁).ofs = (feedAll initial cs₂).ofs := by
  rw [feedAll_initial, feedAll_initial, h]

/-- Instance of C5: the chunks `HTTP/1.0 200 OK CRLF CR` then `LF BODY` against the same
stream in one chunk; both write exactly `BODY`. -/
theorem chunking_independent_witness :
    ["HTTP/1.0 200 OK\r\n\r".toList, "\nBODY".toList].flatten
        = ["HTTP/1.0 200 OK\r\n\r\nBODY".toList].flatten ∧
      (feedAll initial ["HTTP/1.0 200 OK\r\n\r".toList, "\nBODY".toList]).ofs
        = (feedAll initial ["HTTP/1.0 200 OK\r\n\r\nBODY".toList]).ofs ∧
      (feedAll initial ["HTTP/1.0 200 OK\r\n\r".toList, "\nBODY".toList]).ofs
        = "BODY".toList :=
  ⟨by decide, chunking_independent _ _ (by decide), by decide⟩

/-! ## Claims about a single pass and about the retry counter -/

/-- C6: a pass in which `check_pending()` is 0, the monitor returns `DATA_READY` and
`get_bytes_available(sd)` is 0 adds exactly 1 to `no_bytes_retries`, does not call
`session.recv`, leaves `received_so_far`, `reading_headers` and the output untouched, and
goes back to the loop condition: the run continues as the loop started on the new
variables. -/
theorem zero_byte_pass_frame (s : LoopState) (it : Iter)
    (hp : it.check_pending = 0)
    (hpoll : poll_read_poll it.poll_result it.revents_POLLIN = POLL_READ_RESULT.DATA_READY)
    (hb : get_bytes_available it.bytes_available = 0) :
    (loop_body s it).ctl = Ctl.again ∧
    (loop_body s it).state.no_bytes_retries = s.no_bytes_retries + 1 ∧
    (∀ n, Event.recv n ∉ (loop_body s it).events) ∧
    (loop_body s it).state.received_so_far = s.received_so_far ∧
    (loop_body s it).state.reading_headers = s.reading_headers ∧
    (loop_body s it).state.ofs = s.ofs ∧
    (s.no_bytes_retries < max_no_bytes_retries → ∀ rest : List Iter,
      (drain s (it :: rest)).exit = (drain (loop_body s it).state rest).exit ∧
      (drain s (it :: rest)).state = (drain (loop_body s it).state rest).state) := by
  have hz : it.zero_byte = true := by simp [Iter.zero_byte, hp, hpoll, hb]
  have hbody := loop_body_zero_byte s it hz
  have hc : (loop_body s it).ctl = Ctl.again := by rw [hbody]
  refine ⟨hc, by rw [hbody], ?_, by rw [hbody], by rw [hbody], by rw [hbody], ?_⟩
  · intro n
    rw [hbody]
    simp
  · intro h rest
    rw [drain_again s it rest h hc]
    exact ⟨rfl, rfl⟩

/-- Instance of C6 at the initial variables, with an answer script whose `recv` would
raise an exception if it were called. -/
theorem zero_byte_pass_frame_witness :
    (loop_body initial ⟨0, 1, true, 0, Call.throws⟩).ctl = Ctl.again ∧
    (loop_body initial ⟨0, 1, true, 0, Call.throws⟩).state.no_bytes_retries
      = initial.no_bytes_retries + 1 ∧
    (∀ n, Event.recv n ∉ (loop_body initial ⟨0, 1, true, 0, Call.throws⟩).events) ∧
    (loop_body initial ⟨0, 1, true, 0, Call.throws⟩).state.received_so_far
      = initial.received_so_far ∧
    (loop_body initial ⟨0, 1, true, 0, Call.throws⟩).state.reading_headers
      = initial.reading_headers ∧
    (loop_body initial ⟨0, 1, true, 0, Call.throws⟩).state.ofs = initial.ofs ∧
    (initial.no_bytes_retries < max_no_bytes_retries → ∀ rest : List Iter,
      (drain initial (⟨0, 1, true, 0, Call.throws⟩ :: rest)).exit
        = (drain (loop_body initial ⟨0, 1, true, 0, Call.throws⟩).state rest).exit ∧
      (drain initial (⟨0, 1, true, 0, Call.throws⟩ :: rest)).state
        = (drain (loop_body initial ⟨0, 1, true, 0, Call.throws⟩).state rest).state) :=
  zero_byte_pass_frame initial ⟨0, 1, true, 0, Call.throws⟩ rfl (by decide) (by decide)

/-- C1, evaluated on the code: with `check_pending()` equal to 0 and the monitor
returning `TIMED_OUT` (`::poll` gave 0), the pass still calls `session.recv`; the same
happens when the monitor returns `ERROR` (`::poll` gave -1).  The `break` of those two
cases only leaves the `switch`. -/
theorem recv_called_after_timed_out :
    poll_read_poll 0 false = POLL_READ_RESULT.TIMED_OUT ∧
    loop_body initial ⟨0, 0, false, 0, Call.ret (0, [])⟩ =
      ⟨Ctl.brk, initial,
       [Event.check_pending, Event.poll timeout_ms, Event.recv MAX_BUF,
        Event.cout "Peer has closed the TLS connection"]⟩ ∧
    poll_read_poll (-1) false = POLL_READ_RESULT.ERROR ∧
    loop_body initial ⟨0, -1, false, 0, Call.ret (0, [])⟩ =
      ⟨Ctl.brk, initial,
       [Event.check_pending, Event.poll timeout_ms, Event.recv MAX_BUF,
        Event.cout "Peer has closed the TLS connection"]⟩ := by
  decide

/-- C3, evaluated on the code: after a first read that delivers the headers and the body
bytes `AB`, a pass with nothing pending in which the monitor returns `TIMED_OUT` does not
end the loop; `recv` is called, its bytes `CD` are written, and the same happens in the
next pass where the monitor returns `ERROR`.  After the three passes the loop is still
running and the output holds `ABCDEF`. -/
theorem loop_continues_after_timed_out :
    drain initial
      [⟨1, 0, false, 0, Call.ret (7, "H\r\n\r\nAB".toList)⟩,
       ⟨0, 0, false, 0, Call.ret (2, "CD".toList)⟩,
       ⟨0, -1, false, 0, Call.ret (2, "EF".toList)⟩] =
      ⟨Exit.running,
       ⟨0, "H\r\n\r\nAB".toList, false, "ABCDEF".toList⟩,
       [Event.check_pending, Event.recv MAX_BUF,
        Event.cout "Headers received", Event.cout "Reading content",
        Event.check_pending, Event.poll timeout_ms, Event.recv MAX_BUF,
        Event.check_pending, Event.poll timeout_ms, Event.recv MAX_BUF],
       3⟩ := by
  decide

/-- C4 as stated fails: nine zero-byte passes, one successful read of one byte, then one
more zero-byte pass.  The loop makes all eleven passes and is then left by its condition,
although the last ten passes are not all zero-byte passes: a successful read lies between
them and only one zero-byte pass follows it. -/
theorem retry_exhaustion_not_consecutive :
    (drain initial
        (List.replicate 9 (Iter.mk 0 1 true 0 Call.throws) ++
          [Iter.mk 0 1 true 1 (Call.ret (1, "a".toList)),
           Iter.mk 0 1 true 0 Call.throws])).exit = Exit.condition ∧
    (drain initial
        (List.replicate 9 (Iter.mk 0 1 true 0 Call.throws) ++
          [Iter.mk 0 1 true 1 (Call.ret (1, "a".toList)),
           Iter.mk 0 1 true 0 Call.throws])).passes = 11 ∧
    ¬ (∀ it ∈ (List.replicate 9 (Iter.mk 0 1 true 0 Call.throws) ++
          [Iter.mk 0 1 true 1 (Call.ret (1, "a".toList)),
           Iter.mk 0 1 true 0 Call.throws]).drop 1,
        it.zero_byte = true) := by
  decide

/-- C4 as amended: `no_bytes_retries` is never reset, so it counts every zero-byte pass of
the run, whatever lies between them.  For every script, the counter equals the number of
zero-byte passes among the passes made, that number never exceeds
`max_no_bytes_retries`, and the loop is left by its condition exactly when it has
reached `max_no_bytes_retries`. -/
theorem retry_exhaustion_counts_all (its : List Iter) :
    (drain initial its).state.no_bytes_retries
        = (its.take (drain initial its).passes).countP Iter.zero_byte ∧
      (its.take (drain initial its).passes).countP Iter.zero_byte ≤ max_no_bytes_retries ∧
      ((drain initial its).exit = Exit.condition ↔
        (its.take (drain initial its).passes).countP Iter.zero_byte = max_no_bytes_retries) := by
  obtain ⟨h1, h2, h3⟩ := drain_counter initial its (by decide)
  have h0 : initial.no_bytes_retries = 0 := rfl
  rw [h0, Nat.zero_add] at h1
  rw [← h1]
  exact ⟨rfl, h2, h3⟩

/-! ## Calls made by the loop -/

theorem calls_append (a b : List Event) : calls (a ++ b) = calls a ++ calls b := by
  simp [calls]

theorem calls_cons (e : Event) (l : List Event) :
    calls (e :: l) = if e.is_message = true then calls l else e :: calls l := by
  cases h : e.is_message <;> simp [calls, List.filter_cons, h]

theorem feed_events_no_bye (s : LoopState) (chunk : List Char) :
    (feed s chunk).2.count Event.bye = 0 := by
  cases hr : s.reading_headers
  · simp [feed, hr]
  · cases hf : find (s.received_so_far ++ chunk) CRLFCRLF <;> simp [feed, hr, hf]

theorem recv_step_no_bye (s : LoopState) (it : Iter) (evs : List Event)
    (h : evs.count Event.bye = 0) : (recv_step s it evs).events.count Event.bye = 0 := by
  unfold recv_step
  split
  · simp [h]
  · split
    · simp [h]
    · split
      · simp [h]
      · simp [h, feed_events_no_bye]

theorem loop_body_no_bye (s : LoopState) (it : Iter) :
    (loop_body s it).events.count Event.bye = 0 := by
  unfold loop_body
  split
  · split
    · split
      · simp
      · exact recv_step_no_bye _ _ _ (by simp)
    · exact recv_step_no_bye _ _ _ (by simp)
    · exact recv_step_no_bye _ _ _ (by simp)
  · exact recv_step_no_bye _ _ _ (by simp)

theorem drain_no_bye (s : LoopState) (its : List Iter) :
    (drain s its).events.count Event.bye = 0 := by
  induction its generalizing s with
  | nil =>
    by_cases h : s.no_bytes_retries < max_no_bytes_retries
    · rw [drain_nil s h]; rfl
    · rw [drain_stop s [] h]; rfl
  | cons it rest ih =>
    by_cases h : s.no_bytes_retries < max_no_bytes_retries
    · cases hc : (loop_body s it).ctl with
      | again =>
        rw [drain_again s it rest h hc]
        simp [loop_body_no_bye, ih]
      | brk =>
        rw [drain_brk s it rest h hc]
        exact loop_body_no_bye s it
      | thrown =>
        rw [drain_thrown s it rest h hc]
        exact loop_body_no_bye s it
    · rw [drain_stop s _ h]; rfl

/-! ## Claims about what follows the loop -/

/-- C7 as stated fails: the first read returns 0 (the peer closed the session), the loop
is left by `break`, and `session.bye` is called right after it. -/
theorem bye_called_after_peer_close :
    (drain initial [⟨1, 0, false, 0, Call.ret (0, [])⟩]).exit = Exit.brk ∧
    (main ⟨Call.ret (), some 3, Call.ret 0, Call.ret (),
        [⟨1, 0, false, 0, Call.ret (0, [])⟩], Call.ret ()⟩).events =
      [Event.gnutls_global_init, Event.configure, Event.tcp_connect,
       Event.set_transport_ptr 3, Event.handshake,
       Event.cout "Handshake completed", Event.cout "Sending HTTP request",
       Event.send request, Event.cout "Reading response", Event.ofs_open,
       Event.check_pending, Event.recv MAX_BUF,
       Event.cout "Peer has closed the TLS connection",
       Event.bye, Event.cout "Finished", Event.tcp_close 3,
       Event.gnutls_global_deinit] := by
  decide

/-- C7 as amended: once the handshake has succeeded and the request is sent,
`session.bye` is called exactly once whenever the loop is left by `break` (a read
returned 0 or a negative value) or by its condition, and it is not called when the loop
is left by a `gnutls::exception` raised in `recv`. -/
theorem bye_after_every_loop_exit (sd r : Int) (iters : List Iter) (bye : Call Unit)
    (hr : 0 ≤ r) :
    (((drain initial iters).exit = Exit.brk ∨ (drain initial iters).exit = Exit.condition) →
      (main ⟨Call.ret (), some sd, Call.ret r, Call.ret (), iters, bye⟩).events.count
        Event.bye = 1) ∧
    ((drain initial iters).exit = Exit.thrown →
      (main ⟨Call.ret (), some sd, Call.ret r, Call.ret (), iters, bye⟩).events.count
        Event.bye = 0) := by
  have hr' : ¬ r < 0 := by omega
  have hd := drain_no_bye initial iters
  constructor
  · intro hx
    rcases hx with hx | hx <;> cases bye <;> by_cases hsd : sd = -1 <;>
      simp [main, finish, hr', hx, hd, hsd]
  · intro hx
    by_cases hsd : sd = -1 <;> simp [main, finish, hr', hx, hd, hsd]

/-- Instance of C7 as amended: a read returning `GNUTLS_E_PREMATURE_TERMINATION` leaves
the loop by `break` and `session.bye` is called once. -/
theorem bye_after_every_loop_exit_witness :
    (0 : Int) ≤ 0 ∧
    (drain initial [⟨1, 0, false, 0, Call.ret (GNUTLS_E_PREMATURE_TERMINATION, [])⟩]).exit
      = Exit.brk ∧
    (main ⟨Call.ret (), some 3, Call.ret 0, Call.ret (),
        [⟨1, 0, false, 0, Call.ret (GNUTLS_E_PREMATURE_TERMINATION, [])⟩],
        Call.ret ()⟩).events.count Event.bye = 1 :=
  ⟨by decide, by decide,
   (bye_after_every_loop_exit 3 0
      [⟨1, 0, false, 0, Call.ret (GNUTLS_E_PREMATURE_TERMINATION, [])⟩] (Call.ret ())
      (by decide)).1 (Or.inl (by decide))⟩

theorem main_eq_finish (sd : Int) (hs : Call Int) (snd bye : Call Unit)
    (iters : List Iter) (hh : ∀ r, hs = Call.ret r → 0 ≤ r)
    (hx : (drain initial iters).exit ≠ Exit.running) :
    ∃ evs output,
      main ⟨Call.ret (), some sd, hs, snd, iters, bye⟩ = finish sd evs output := by
  cases hs with
  | throws => exact ⟨_, _, rfl⟩
  | ret r =>
    have hr : ¬ r < 0 := by have := hh r rfl; omega
    cases snd with
    | throws =>
      simp only [main, hr, if_false]
      exact ⟨_, _, rfl⟩
    | ret v =>
      cases hx' : (drain initial iters).exit <;> cases bye <;>
        first
          | exact absurd hx' hx
          | (simp only [main, hr, if_false, hx']; exact ⟨_, _, rfl⟩)

theorem finish_closes (sd : Int) (evs : List Event) (output : Option (List Char))
    (hsd : sd ≠ -1) :
    (finish sd evs output).outcome = Outcome.returned 0 ∧
      [Event.tcp_close sd, Event.gnutls_global_deinit] <:+ (finish sd evs output).events := by
  refine ⟨rfl, evs, ?_⟩
  simp [finish, hsd]

theorem RETWRAP_ret (code r : Int) (h : RETWRAP code = Call.ret r) : 0 ≤ r := by
  unfold RETWRAP at h
  split at h
  · cases h
  · injection h with h
    omega

/-- C8: in every run in which `tcp_connect` has returned a descriptor `sd`, whatever code
`gnutls_handshake` gives and whatever the later calls answer, a run that comes to an end
ends by `main` returning after `tcp_close(sd)` and `gnutls_global_deinit()`.  In
particular, when the handshake fails with a negative code, which gnutlsxx raises as a
`gnutls::exception`, the loop is never entered (no call follows the handshake), the
handler reports the failure on standard error, and the transport is closed. -/
theorem tcp_close_on_every_path (sd code : Int) (snd bye : Call Unit) (iters : List Iter)
    (hsd : sd ≠ -1) :
    ((drain initial iters).exit ≠ Exit.running →
      (main ⟨Call.ret (), some sd, RETWRAP code, snd, iters, bye⟩).outcome
          = Outcome.returned 0 ∧
      [Event.tcp_close sd, Event.gnutls_global_deinit]
          <:+ (main ⟨Call.ret (), some sd, RETWRAP code, snd, iters, bye⟩).events) ∧
    (code < 0 →
      main ⟨Call.ret (), some sd, RETWRAP code, snd, iters, bye⟩ =
        ⟨Outcome.returned 0,
         [Event.gnutls_global_init, Event.configure, Event.tcp_connect,
          Event.set_transport_ptr sd, Event.handshake, Event.cerr_exception,
          Event.tcp_close sd, Event.gnutls_global_deinit],
         none⟩) := by
  constructor
  · intro hx
    obtain ⟨evs, output, he⟩ :=
      main_eq_finish sd (RETWRAP code) snd bye iters (RETWRAP_ret code) hx
    rw [he]
    exact finish_closes sd evs output hsd
  · intro hc
    simp [main, finish, RETWRAP, hc, hsd]

/-- Instance of C8: descriptor 3 and a handshake failing with code -1; the run is the
handshake, the line of the handler, `tcp_close(3)` and the global deinitialisation. -/
theorem tcp_close_on_every_path_witness :
    (3 : Int) ≠ -1 ∧ (-1 : Int) < 0 ∧
    main ⟨Call.ret (), some 3, RETWRAP (-1), Call.ret (), [], Call.ret ()⟩ =
      ⟨Outcome.returned 0,
       [Event.gnutls_global_init, Event.configure, Event.tcp_connect,
        Event.set_transport_ptr 3, Event.handshake, Event.cerr_exception,
        Event.tcp_close 3, Event.gnutls_global_deinit],
       none⟩ :=
  ⟨by decide, by decide,
   (tcp_close_on_every_path 3 (-1) (Call.ret ()) (Call.ret ()) [] (by decide)).2 (by decide)⟩

/-- C9 as stated fails: the first read returns -24 (`GNUTLS_E_DECRYPTION_FAILED`), a
negative value other than the premature-termination indicator, and `main` returns 0;
it also returns 0 when `recv` raises a `gnutls::exception`. -/
theorem fatal_read_error_returns_zero :
    (-24 : Int) < 0 ∧ (-24 : Int) ≠ GNUTLS_E_PREMATURE_TERMINATION ∧
    (main ⟨Call.ret (), some 3, Call.ret 0, Call.ret (),
        [⟨1, 0, false, 0, Call.ret (-24, [])⟩], Call.ret ()⟩).outcome = Outcome.returned 0 ∧
    (main ⟨Call.ret (), some 3, Call.ret 0, Call.ret (),
        [⟨1, 0, false, 0, Call.throws⟩], Call.ret ()⟩).outcome = Outcome.returned 0 := by
  decide

theorem main_outcome_cases (env : Env) :
    (main env).outcome = Outcome.returned 0 ∨ (main env).outcome = Outcome.exited 1 ∨
      (main env).outcome = Outcome.terminated ∨ (main env).outcome = Outcome.running := by
  obtain ⟨config, conn, hs, snd, iters, bye⟩ := env
  cases config with
  | throws => simp [main, finish]
  | ret u =>
    cases conn with
    | none => simp [main]
    | some sd =>
      cases hs with
      | throws => simp [main, finish]
      | ret r =>
        by_cases hr : r < 0
        · simp [main, hr]
        · cases snd with
          | throws => simp [main, finish, hr]
          | ret v =>
            cases hx : (drain initial iters).exit <;> cases bye <;>
              simp [main, finish, hr, hx]

/-- C9 as amended: the value returned by `main` does not tell a fatal run from a benign
one.  Whenever `main` returns, it returns 0; in particular it returns 0 once the loop
has been reached and left in any way (by `break` after a read returning 0 or any negative
value, by a `gnutls::exception` raised in `recv`, or by its condition), and when a
`gnutls::exception` is raised during configuration or by the handshake. -/
theorem main_returns_zero (env : Env) :
    (∀ code, (main env).outcome = Outcome.returned code → code = 0) ∧
    (∀ sd r, env.config = Call.ret () → env.tcp_connect = some sd →
      env.handshake = Call.ret r → 0 ≤ r → env.send = Call.ret () →
      (drain initial env.iters).exit ≠ Exit.running →
      (main env).outcome = Outcome.returned 0) ∧
    (env.config = Call.throws → (main env).outcome = Outcome.returned 0) ∧
    (∀ sd, env.config = Call.ret () → env.tcp_connect = some sd →
      env.handshake = Call.throws → (main env).outcome = Outcome.returned 0) := by
  refine ⟨?_, ?_, ?_, ?_⟩
  · intro code h
    rcases main_outcome_cases env with h0 | h0 | h0 | h0 <;> rw [h0] at h
    · injection h with h; exact h.symm
    · cases h
    · cases h
    · cases h
  · obtain ⟨config, conn, hs, snd, iters, bye⟩ := env
    intro sd r hc ht hh hr hsnd hx
    simp only at hc ht hh hsnd hx
    subst hc ht hh hsnd
    have hr' : ¬ r < 0 := by omega
    cases hx' : (drain initial iters).exit <;> cases bye <;>
      first
        | exact absurd hx' hx
        | simp [main, finish, hr', hx']
  · obtain ⟨config, conn, hs, snd, iters, bye⟩ := env
    intro hc
    simp only at hc
    subst hc
    simp [main, finish]
  · obtain ⟨config, conn, hs, snd, iters, bye⟩ := env
    intro sd hc ht hh
    simp only at hc ht hh
    subst hc ht hh
    simp [main, finish]

/-- Instance of C9 as amended: the first read returns -24, the loop is left by `break`,
and `main` returns 0. -/
theorem main_returns_zero_witness :
    (main ⟨Call.ret (), some 3, Call.ret 0, Call.ret (),
        [⟨1, 0, false, 0, Call.ret (-24, [])⟩], Call.ret ()⟩).outcome = Outcome.returned 0 :=
  (main_returns_zero ⟨Call.ret (), some 3, Call.ret 0, Call.ret (),
      [⟨1, 0, false, 0, Call.ret (-24, [])⟩], Call.ret ()⟩).2.1 3 0 rfl rfl rfl
    (by decide) rfl (by decide)

/-! ## Premature termination against end of stream -/

theorem session_recv_premature (b : List Char) :
    session_recv GNUTLS_E_PREMATURE_TERMINATION b = Call.throws := by
  simp [session_recv, RETWRAP, GNUTLS_E_PREMATURE_TERMINATION]

theorem session_recv_zero (b : List Char) : session_recv 0 b = Call.ret (0, b) := by
  simp [session_recv, RETWRAP]

theorem loop_body_throws_vs_zero (s : LoopState) (it : Iter) (b : List Char) :
    (loop_body s { it with recv := Call.throws }).state
        = (loop_body s { it with recv := Call.ret (0, b) }).state ∧
      calls (loop_body s { it with recv := Call.throws }).events
        = calls (loop_body s { it with recv := Call.ret (0, b) }).events ∧
      ((loop_body s { it with recv := Call.throws }).ctl
          = (loop_body s { it with recv := Call.ret (0, b) }).ctl ∨
        ((loop_body s { it with recv := Call.throws }).ctl = Ctl.thrown ∧
          (loop_body s { it with recv := Call.ret (0, b) }).ctl = Ctl.brk)) := by
  by_cases h1 : it.check_pending = 0 <;>
    cases h2 : poll_read_poll it.poll_result it.revents_POLLIN <;>
    by_cases h3 : get_bytes_available it.bytes_available = 0 <;>
    simp [loop_body, recv_step, calls, Event.is_message, h1, h2, h3]

theorem loop_body_reads_throws_vs_zero (s : LoopState) (it : Iter) (b : List Char)
    (hz : it.zero_byte = false) :
    (loop_body s { it with recv := Call.throws }).ctl = Ctl.thrown ∧
      (loop_body s { it with recv := Call.ret (0, b) }).ctl = Ctl.brk ∧
      (loop_body s { it with recv := Call.throws }).state = s ∧
      (loop_body s { it with recv := Call.ret (0, b) }).state = s := by
  by_cases h1 : it.check_pending = 0 <;>
    cases h2 : poll_read_poll it.poll_result it.revents_POLLIN <;>
    by_cases h3 : get_bytes_available it.bytes_available = 0 <;>
    simp [loop_body, recv_step, Iter.zero_byte, h1, h2, h3] at hz ⊢

theorem drain_throws_vs_zero (s : LoopState) (pre post : List Iter) (it : Iter)
    (b : List Char) :
    (drain s (pre ++ { it with recv := Call.throws } :: post)).state
        = (drain s (pre ++ { it with recv := Call.ret (0, b) } :: post)).state ∧
      calls (drain s (pre ++ { it with recv := Call.throws } :: post)).events
        = calls (drain s (pre ++ { it with recv := Call.ret (0, b) } :: post)).events ∧
      ((drain s (pre ++ { it with recv := Call.throws } :: post)).exit
          = (drain s (pre ++ { it with recv := Call.ret (0, b) } :: post)).exit ∨
        ((drain s (pre ++ { it with recv := Call.throws } :: post)).exit = Exit.thrown ∧
          (drain s (pre ++ { it with recv := Call.ret (0, b) } :: post)).exit = Exit.brk)) := by
  induction pre generalizing s with
  | nil =>
    simp only [List.nil_append]
    by_cases h : s.no_bytes_retries < max_no_bytes_retries
    · obtain ⟨hs, he, hc⟩ := loop_body_throws_vs_zero s it b
      rcases hc with hc | ⟨hc1, hc2⟩
      · cases hc2 : (loop_body s { it with recv := Call.ret (0, b) }).ctl with
        | again =>
          rw [drain_again s _ post h (hc.trans hc2), drain_again s _ post h hc2]
          refine ⟨?_, ?_, Or.inl ?_⟩ <;> simp only [calls_append, hs, he]
        | brk =>
          rw [drain_brk s _ post h (hc.trans hc2), drain_brk s _ post h hc2]
          exact ⟨hs, he, Or.inl rfl⟩
        | thrown =>
          rw [drain_thrown s _ post h (hc.trans hc2), drain_thrown s _ post h hc2]
          exact ⟨hs, he, Or.inl rfl⟩
      · rw [drain_thrown s _ post h hc1, drain_brk s _ post h hc2]
        exact ⟨hs, he, Or.inr ⟨rfl, rfl⟩⟩
    · rw [drain_stop s _ h, drain_stop s _ h]
      exact ⟨rfl, rfl, Or.inl rfl⟩
  | cons p pre ih =>
    simp only [List.cons_append]
    by_cases h : s.no_bytes_retries < max_no_bytes_retries
    · cases hc : (loop_body s p).ctl with
      | again =>
        rw [drain_again s p _ h hc, drain_again s p _ h hc]
        obtain ⟨h1, h2, h3⟩ := ih (loop_body s p).state
        refine ⟨h1, ?_, h3⟩
        simp only [calls_append, h2]
      | brk =>
        rw [drain_brk s p _ h hc, drain_brk s p _ h hc]
        exact ⟨rfl, rfl, Or.inl rfl⟩
      | thrown =>
        rw [drain_thrown s p _ h hc, drain_thrown s p _ h hc]
        exact ⟨rfl, rfl, Or.inl rfl⟩
    · rw [drain_stop s _ h, drain_stop s _ h]
      exact ⟨rfl, rfl, Or.inl rfl⟩

theorem drain_running_cond (s : LoopState) (pre : List Iter)
    (h : (drain s pre).exit = Exit.running) :
    (drain s pre).state.no_bytes_retries < max_no_bytes_retries := by
  induction pre generalizing s with
  | nil =>
    by_cases hc : s.no_bytes_retries < max_no_bytes_retries
    · rw [drain_nil s hc]; exact hc
    · rw [drain_stop s [] hc] at h; cases h
  | cons p pre ih =>
    by_cases hc : s.no_bytes_retries < max_no_bytes_retries
    · cases hctl : (loop_body s p).ctl with
      | again =>
        rw [drain_again s p pre hc hctl] at h ⊢
        exact ih _ h
      | brk => rw [drain_brk s p pre hc hctl] at h; cases h
      | thrown => rw [drain_thrown s p pre hc hctl] at h; cases h
    · rw [drain_stop s _ hc] at h; cases h

theorem drain_running_append (s : LoopState) (pre rest : List Iter)
    (h : (drain s pre).exit = Exit.running) :
    (drain s (pre ++ rest)).exit = (drain (drain s pre).state rest).exit := by
  induction pre generalizing s with
  | nil =>
    by_cases hc : s.no_bytes_retries < max_no_bytes_retries
    · rw [drain_nil s hc]; rfl
    · rw [drain_stop s [] hc] at h; cases h
  | cons p pre ih =>
    simp only [List.cons_append]
    by_cases hc : s.no_bytes_retries < max_no_bytes_retries
    · cases hctl : (loop_body s p).ctl with
      | again =>
        rw [drain_again s p pre hc hctl] at h ⊢
        rw [drain_again s p _ hc hctl]
        exact ih _ h
      | brk => rw [drain_brk s p pre hc hctl] at h; cases h
      | thrown => rw [drain_thrown s p pre hc hctl] at h; cases h
    · rw [drain_stop s _ hc] at h; cases h

theorem main_bye_count (sd r : Int) (iters : List Iter) (bye : Call Unit) (hr : 0 ≤ r) :
    ((drain initial iters).exit = Exit.thrown →
      (main ⟨Call.ret (), some sd, Call.ret r, Call.ret (), iters, bye⟩).events.count
        Event.bye = 0) ∧
    ((drain initial iters).exit = Exit.brk →
      (main ⟨Call.ret (), some sd, Call.ret r, Call.ret (), iters, bye⟩).events.count
        Event.bye = 1) := by
  have hr' : ¬ r < 0 := by omega
  have hd := drain_no_bye initial iters
  constructor
  · intro hx
    by_cases hsd : sd = -1 <;> simp [main, finish, hr', hx, hd, hsd]
  · intro hx
    cases bye <;> by_cases hsd : sd = -1 <;> simp [main, finish, hr', hx, hd, hsd]

theorem main_throws_vs_zero (env : Env) (pre post : List Iter) (it : Iter) (b : List Char) :
    (main { env with iters := pre ++ { it with recv := Call.throws } :: post }).outcome
      = (main { env with iters := pre ++ { it with recv := Call.ret (0, b) } :: post }).outcome ∧
    (main { env with iters := pre ++ { it with recv := Call.throws } :: post }).output
      = (main { env with iters := pre ++ { it with recv := Call.ret (0, b) } :: post }).output ∧
    (calls (main { env with iters := pre ++ { it with recv := Call.throws } :: post }).events
        = calls (main { env with
            iters := pre ++ { it with recv := Call.ret (0, b) } :: post }).events ∨
      ∃ before after,
        calls (main { env with iters := pre ++ { it with recv := Call.throws } :: post }).events
          = before ++ after ∧
        calls (main { env with
            iters := pre ++ { it with recv := Call.ret (0, b) } :: post }).events
          = before ++ Event.bye :: after) := by
  obtain ⟨config, conn, hs, snd, iters, bye⟩ := env
  cases config with
  | throws => simp [main, finish]
  | ret u =>
    cases conn with
    | none => simp [main]
    | some sd =>
      cases hs with
      | throws => simp [main, finish]
      | ret r =>
        by_cases hr : r < 0
        · simp [main, hr]
        · cases snd with
          | throws => simp [main, finish, hr]
          | ret v =>
            obtain ⟨hst, he, hx⟩ := drain_throws_vs_zero initial pre post it b
            rcases hx with hx | ⟨hx1, hx2⟩
            · cases hx2 : (drain initial
                  (pre ++ { it with recv := Call.ret (0, b) } :: post)).exit <;>
                cases bye <;>
                simp [main, finish, hr, hx.trans hx2, hx2, hst, calls_cons, calls_append,
                  Event.is_message, he]
            · refine ⟨?_, ?_, Or.inr ⟨calls
                ([Event.gnutls_global_init, Event.configure, Event.tcp_connect,
                  Event.set_transport_ptr sd, Event.handshake,
                  Event.cout "Handshake completed", Event.cout "Sending HTTP request",
                  Event.send request, Event.cout "Reading response", Event.ofs_open] ++
                  (drain initial
                    (pre ++ { it with recv := Call.ret (0, b) } :: post)).events),
                calls ((if sd ≠ -1 then [Event.tcp_close sd] else []) ++
                  [Event.gnutls_global_deinit]), ?_, ?_⟩⟩
              · cases bye <;> simp [main, finish, hr, hx1, hx2]
              · cases bye <;> simp [main, finish, hr, hx1, hx2, hst]
              · by_cases hsd : sd = -1 <;>
                  simp [main, finish, hr, hx1, hsd, calls_cons, calls_append,
                    Event.is_message, he]
              · cases bye <;> by_cases hsd : sd = -1 <;>
                  simp [main, finish, hr, hx2, hsd, calls_cons, calls_append,
                    Event.is_message]

/-- C10 as stated fails: gnutlsxx raises the premature-termination code as a
`gnutls::exception`.  With data pending, the pass in which `recv` meets it leaves the
loop by the exception, while the pass in which `recv` returns 0 leaves it by `break`;
in the first run `session.bye` is not called and the handler's line is printed, in the
second `bye` is called once. -/
theorem premature_termination_skips_bye :
    session_recv GNUTLS_E_PREMATURE_TERMINATION [] = Call.throws ∧
    (loop_body initial
        ⟨1, 0, false, 0, session_recv GNUTLS_E_PREMATURE_TERMINATION []⟩).ctl = Ctl.thrown ∧
    (loop_body initial ⟨1, 0, false, 0, session_recv 0 []⟩).ctl = Ctl.brk ∧
    (main ⟨Call.ret (), some 3, RETWRAP 0, Call.ret (),
        [⟨1, 0, false, 0, session_recv GNUTLS_E_PREMATURE_TERMINATION []⟩],
        Call.ret ()⟩).events =
      [Event.gnutls_global_init, Event.configure, Event.tcp_connect,
       Event.set_transport_ptr 3, Event.handshake,
       Event.cout "Handshake completed", Event.cout "Sending HTTP request",
       Event.send request, Event.cout "Reading response", Event.ofs_open,
       Event.check_pending, Event.recv MAX_BUF,
       Event.cerr_exception, Event.tcp_close 3, Event.gnutls_global_deinit] ∧
    (main ⟨Call.ret (), some 3, RETWRAP 0, Call.ret (),
        [⟨1, 0, false, 0, session_recv 0 []⟩], Call.ret ()⟩).events =
      [Event.gnutls_global_init, Event.configure, Event.tcp_connect,
       Event.set_transport_ptr 3, Event.handshake,
       Event.cout "Handshake completed", Event.cout "Sending HTTP request",
       Event.send request, Event.cout "Reading response", Event.ofs_open,
       Event.check_pending, Event.recv MAX_BUF,
       Event.cout "Peer has closed the TLS connection",
       Event.bye, Event.cout "Finished", Event.tcp_close 3,
       Event.gnutls_global_deinit] := by
  decide

/-- C10 as amended: the premature-termination code reaches `main` as a
`gnutls::exception` raised by `session.recv`.  From every loop state, a pass that gets to
the read leaves the loop in that pass with the variables (output and header accumulator
included) unchanged, both when `recv` raises it and when `recv` returns 0, but by the
exception in the first case and by `break` in the second.  Over a whole run, replacing
one answer by the other changes neither the outcome of `main` nor the output file, and
the calls into the session, the monitor and the transport are the same except that the
run with the read of 0 may hold one more call, `session.bye`: when the pass is reached
and gets to the read, `bye` is not called after the exception and is called once after
the read of 0. -/
theorem premature_termination_leaves_by_exception (s : LoopState) (it : Iter)
    (b₁ b₂ : List Char) :
    session_recv GNUTLS_E_PREMATURE_TERMINATION b₁ = Call.throws ∧
    (it.zero_byte = false →
      (loop_body s
          { it with recv := session_recv GNUTLS_E_PREMATURE_TERMINATION b₁ }).ctl
        = Ctl.thrown ∧
      (loop_body s { it with recv := session_recv 0 b₂ }).ctl = Ctl.brk ∧
      (loop_body s
          { it with recv := session_recv GNUTLS_E_PREMATURE_TERMINATION b₁ }).state = s ∧
      (loop_body s { it with recv := session_recv 0 b₂ }).state = s) ∧
    (∀ (env : Env) (pre post : List Iter),
      (main { env with
          iters := pre ++
            { it with recv := session_recv GNUTLS_E_PREMATURE_TERMINATION b₁ } :: post }).outcome
        = (main { env with
            iters := pre ++ { it with recv := session_recv 0 b₂ } :: post }).outcome ∧
      (main { env with
          iters := pre ++
            { it with recv := session_recv GNUTLS_E_PREMATURE_TERMINATION b₁ } :: post }).output
        = (main { env with
            iters := pre ++ { it with recv := session_recv 0 b₂ } :: post }).output ∧
      (calls (main { env with
          iters := pre ++
            { it with recv := session_recv GNUTLS_E_PREMATURE_TERMINATION b₁ } :: post }).events
          = calls (main { env with
              iters := pre ++ { it with recv := session_recv 0 b₂ } :: post }).events ∨
        ∃ before after,
          calls (main { env with
            iters := pre ++
              { it with recv := session_recv GNUTLS_E_PREMATURE_TERMINATION b₁ }
                :: post }).events
            = before ++ after ∧
          calls (main { env with
              iters := pre ++ { it with recv := session_recv 0 b₂ } :: post }).events
            = before ++ Event.bye :: after)) ∧
    (∀ (sd r : Int) (bye : Call Unit) (pre post : List Iter), 0 ≤ r →
      (drain initial pre).exit = Exit.running → it.zero_byte = false →
      (main ⟨Call.ret (), some sd, Call.ret r, Call.ret (),
          pre ++ { it with recv := session_recv GNUTLS_E_PREMATURE_TERMINATION b₁ } :: post,
          bye⟩).events.count Event.bye = 0 ∧
      (main ⟨Call.ret (), some sd, Call.ret r, Call.ret (),
          pre ++ { it with recv := session_recv 0 b₂ } :: post,
          bye⟩).events.count Event.bye = 1) := by
  rw [session_recv_premature, session_recv_zero]
  refine ⟨rfl, loop_body_reads_throws_vs_zero s it b₂,
    fun env pre post => main_throws_vs_zero env pre post it b₂, ?_⟩
  intro sd r bye pre post hr hrun hz
  have hcond := drain_running_cond initial pre hrun
  obtain ⟨hc1, hc2, _, _⟩ := loop_body_reads_throws_vs_zero (drain initial pre).state it b₂ hz
  have hx1 : (drain initial (pre ++ { it with recv := Call.throws } :: post)).exit
      = Exit.thrown := by
    rw [drain_running_append initial pre _ hrun, drain_thrown _ _ post hcond hc1]
  have hx2 : (drain initial (pre ++ { it with recv := Call.ret (0, b₂) } :: post)).exit
      = Exit.brk := by
    rw [drain_running_append initial pre _ hrun, drain_brk _ _ post hcond hc2]
  exact ⟨(main_bye_count sd r _ bye hr).1 hx1, (main_bye_count sd r _ bye hr).2 hx2⟩

/-- Instance of C10 as amended: after a first read that delivers the headers and the body
bytes `AB`, a pass with data pending gets to the read; `session.bye` is not called when
`recv` raises the premature termination and is called once when `recv` returns 0. -/
theorem premature_termination_leaves_by_exception_witness :
    (0 : Int) ≤ 0 ∧
    (drain initial [⟨1, 0, false, 0, Call.ret (7, "H\r\n\r\nAB".toList)⟩]).exit
      = Exit.running ∧
    (⟨1, 0, false, 0, Call.throws⟩ : Iter).zero_byte = false ∧
    (main ⟨Call.ret (), some 3, Call.ret 0, Call.ret (),
        [⟨1, 0, false, 0, Call.ret (7, "H\r\n\r\nAB".toList)⟩] ++
          { (⟨1, 0, false, 0, Call.throws⟩ : Iter) with
            recv := session_recv GNUTLS_E_PREMATURE_TERMINATION [] } :: [],
        Call.ret ()⟩).events.count Event.bye = 0 ∧
    (main ⟨Call.ret (), some 3, Call.ret 0, Call.ret (),
        [⟨1, 0, false, 0, Call.ret (7, "H\r\n\r\nAB".toList)⟩] ++
          { (⟨1, 0, false, 0, Call.throws⟩ : Iter) with recv := session_recv 0 [] } :: [],
        Call.ret ()⟩).events.count Event.bye = 1 :=
  ⟨by decide, by decide, by decide,
   (premature_termination_leaves_by_exception initial ⟨1, 0, false, 0, Call.throws⟩ [] []).2.2.2
     3 0 (Call.ret ()) [⟨1, 0, false, 0, Call.ret (7, "H\r\n\r\nAB".toList)⟩] []
     (by decide) (by decide) (by decide)⟩

end GnutlsExample
